import Mathlib

/-!
Verification of the REST-API MCP tools generator.

The definitions below are shallow embeddings of the Python sources:

* `core/tools_base.py` — `Property`, `Parameters`, `RestApiParameters`,
  `RestApiTool.get_api_url`, `RestApiTool.to_jsonrpc`;
* `tools_generator/services.py` — `SwaggerParser._basic_spec_validation`,
  `SwaggerParser.fetch_swagger_spec` (validation stage),
  `SwaggerParser._get_parameter_type`, `YAMLGenerator._generate_tool_name`,
  `YAMLGenerator._generate_tool_parameters`,
  `ToolClassGenerator._generate_invoke_method` (encoding choice);
* `mcp_server/services.py` — the dynamically created tool's
  `get_parameters`/`invoke` and `MCPServer.execute_tool`;
* `mcp_server/mcp_server_stdio.py` — the dynamic tool's `invoke` and
  `handle_call_tool`;
* `mcp_server/mcp_server_fastmcp.py` — `FastMCPRestApiServer._execute_tool`.

Python/JSON values are modelled by `JValue` (a JSON tree; `JValue.null`
stands for Python `None`).  Python dicts are modelled as insertion-ordered
association lists with `dget`/`dinsert`.  HTTP calls are modelled by an
`HttpOutcome` input: either an exception raised by the HTTP library while
encoding/sending the request, or a response with a status code and a body.
Raising an exception out of a Python function is modelled by returning
`Except.error`.
-/

/-- A JSON/Python value. `null` models Python `None`; objects and dicts are
insertion-ordered association lists. -/
inductive JValue where
  | null : JValue
  | bool (b : Bool) : JValue
  | int (n : Int) : JValue
  | str (s : String) : JValue
  | arr (xs : List JValue) : JValue
  | obj (fields : List (String × JValue)) : JValue

/-- Python truthiness of a JSON value (`bool(v)`). -/
def JValue.truthy : JValue → Bool
  | .null => false
  | .bool b => b
  | .int n => n != 0
  | .str s => s != ""
  | .arr xs => !xs.isEmpty
  | .obj fs => !fs.isEmpty

/-- `v is None` in Python. -/
def JValue.isNull : JValue → Bool
  | .null => true
  | _ => false

/-- First value bound to a key in an association list (`dict.get(k)`). -/
def dget {α : Type} : List (String × α) → String → Option α
  | [], _ => none
  | (k, v) :: rest, key => if k = key then some v else dget rest key

/-- `dict.get(k, default)`. -/
def pyGetD (d : List (String × JValue)) (k : String) (dflt : JValue) : JValue :=
  (dget d k).getD dflt

/-- Python `dict[k] = v`: overwrite the key in place if present, else append. -/
def dinsert {α : Type} : List (String × α) → String → α → List (String × α)
  | [], key, v => [(key, v)]
  | (k, w) :: rest, key, v =>
    if k = key then (key, v) :: rest else (k, w) :: dinsert rest key v

/-- Python `dict.update(extra)`: fold `dinsert` over the new bindings. -/
def dictUpdate {α : Type} (d extra : List (String × α)) : List (String × α) :=
  extra.foldl (fun acc kv => dinsert acc kv.1 kv.2) d

/-- Turn an argument that may be Python `None` into the `Option` used for a
defaulted keyword argument (`if id is None`). -/
def pyOptional (o : Option JValue) : Option JValue :=
  match o with
  | some .null => none
  | x => x

/-- `core/tools_base.py` `Property` dataclass. -/
structure Property where
  type : String := "string"
  description : String := ""

/-- `core/tools_base.py` `Parameters` dataclass. -/
structure Parameters where
  type : String := "object"
  properties : List (String × Property) := []
  required : List String := []

/-- The three identity parameter names injected by `RestApiParameters`. -/
def identityKeys : List String := ["client_key", "entity_key", "user_key"]

/-- The base properties of `RestApiParameters.__init__`. -/
def baseProperties : List (String × Property) :=
  [("client_key", { type := "string", description := "Client key" }),
   ("entity_key", { type := "string", description := "Entity key" }),
   ("user_key", { type := "string", description := "User key" })]

/-- `core/tools_base.py` `RestApiParameters.__init__`: the identity
properties, updated with the extra properties, and the identity names
followed by the extra required names. -/
def restApiParameters (extra_properties : List (String × Property))
    (extra_required : List String) : Parameters :=
  { type := "object",
    properties := dictUpdate baseProperties extra_properties,
    required := identityKeys ++ extra_required }

/-- `core/tools_base.py` `RestApiTool.get_api_url`: plain string
concatenation of the base URL and the (unsubstituted) path. -/
def get_api_url (api_base_url path : String) : String :=
  api_base_url ++ path

/-- The JSON-RPC envelope produced by the dispatchers: exactly one of
`success` (the `result` key-value list) or `failure` (the `error` object). -/
inductive Envelope where
  | success (result : List (String × JValue)) (id : JValue) : Envelope
  | failure (code : JValue) (message : JValue) (data : JValue) (id : JValue) : Envelope

/-- Whether an envelope is the success shape. -/
def isSuccessEnv : Envelope → Bool
  | .success _ _ => true
  | .failure _ _ _ _ => false

/-- Whether an envelope is the failure shape. -/
def isFailureEnv : Envelope → Bool
  | .success _ _ => false
  | .failure _ _ _ _ => true

/-- `core/tools_base.py` `RestApiTool.to_jsonrpc`, applied to a decoded JSON
object body.  Success exactly when the body's `error` key is absent or falsy;
otherwise a failure whose code is the body's `status` (default 500) and whose
message is the body's `msg` (default `Internal Server Error`). -/
def to_jsonrpc (response : List (String × JValue)) (id : Option JValue) : Envelope :=
  let theId : JValue := id.getD (pyGetD response ("request_id") (.int (-1)))
  if (pyGetD response ("error") (.bool false)).truthy then
    .failure (pyGetD response ("status") (.int 500))
      (pyGetD response ("msg") (.str ("Internal Server Error")))
      (pyGetD response ("data") (.arr [])) theId
  else
    .success
      [("msg", pyGetD response ("msg") (.str (""))),
       ("data", pyGetD response ("data") (.arr [])),
       ("status", pyGetD response ("status") (.int 200)),
       ("type", pyGetD response ("type") (.str ("json"))),
       ("total_count", pyGetD response ("total_count") (.int (-1)))] theId

/-- An HTTP response as seen by the dispatchers: the status code, whether the
raw body is non-empty, the decoded JSON body (`none` when the body is not
valid JSON, in which case `.json()` raises), the raw text, and the message
of the exception `raise_for_status` would raise. -/
structure HttpResponse where
  status : Int
  hasContent : Bool
  jsonBody : Option JValue
  text : String
  errText : String

/-- The outcome of issuing the HTTP request: an exception raised while
encoding or sending (network failure included), or a response. -/
inductive HttpOutcome where
  | exn (msg : String) : HttpOutcome
  | resp (r : HttpResponse) : HttpOutcome

/-- Python `str.lower()`. -/
def pyLower (s : String) : String := String.mk (s.data.map Char.toLower)

/-- Python `str.upper()`. -/
def pyUpper (s : String) : String := String.mk (s.data.map Char.toUpper)

/-- Where a dispatcher puts the merged argument map. -/
inductive PayloadChannel where
  | query : PayloadChannel
  | jsonBody : PayloadChannel
  | formBody : PayloadChannel
  deriving DecidableEq

/-- The HTTP methods that carry the arguments in the request body. -/
def bodyMethods : List String := ["POST", "PUT", "PATCH"]

/-- `mcp_server_fastmcp.py` `_execute_tool`: `json=` for POST/PUT/PATCH,
`params=` otherwise. -/
def fastmcpChannel (method : String) : PayloadChannel :=
  if pyUpper method ∈ bodyMethods then .jsonBody else .query

/-- `mcp_server_stdio.py` dynamic `invoke`: `json=` for POST/PUT/PATCH,
`params=` otherwise. -/
def stdioChannel (method : String) : PayloadChannel :=
  if pyUpper method ∈ bodyMethods then .jsonBody else .query

/-- `mcp_server/services.py` dynamic `invoke`: `data=` (form-encoded) for
POST/PUT/PATCH, `params=` otherwise. -/
def servicesChannel (method : String) : PayloadChannel :=
  if pyUpper method ∈ bodyMethods then .formBody else .query

/-- `tools_generator/services.py` `_generate_invoke_method`: the generated
classes call `requests.post(url, data=data)` (form-encoded) for
POST/PUT/PATCH and `params=` otherwise. -/
def genClassChannel (method : String) : PayloadChannel :=
  if pyUpper method ∈ bodyMethods then .formBody else .query

/-- Python `str.rstrip('/')`. -/
def rstripSlash (s : String) : String :=
  String.mk ((s.data.reverse.dropWhile (fun c => c = '/')).reverse)

/-- The merge loop shared by the dispatchers: walk the call arguments in
order and assign into the data dict every argument whose key is not in the
skip list and whose value is not `None`. -/
def mergeNonNull (skip : List String) :
    List (String × JValue) → List (String × JValue) → List (String × JValue)
  | [], acc => acc
  | kv :: rest, acc =>
    mergeNonNull skip rest
      (if kv.1 ∉ skip ∧ kv.2.isNull = false then dinsert acc kv.1 kv.2 else acc)

/-- `mcp_server_fastmcp.py` `_execute_tool` lines 133-146: the identity
parameters are read from the arguments (possibly `None`), the remaining
non-`None` arguments are merged in, and then every `None` value is removed. -/
def buildFastmcpData (arguments : List (String × JValue)) : List (String × JValue) :=
  let base : List (String × JValue) :=
    [("client_key", pyGetD arguments ("client_key") .null),
     ("entity_key", pyGetD arguments ("entity_key") .null),
     ("user_key", pyGetD arguments ("user_key") .null)]
  (mergeNonNull identityKeys arguments base).filter (fun kv => !kv.2.isNull)

/-- A manifest tool entry as used by the FastMCP dispatcher. -/
structure FastTool where
  method : String
  path : String

/-- The request the FastMCP dispatcher prepares before issuing the HTTP
call: the literal URL, the channel and the merged payload. -/
structure PreparedRequest where
  method : String
  url : String
  channel : PayloadChannel
  payload : List (String × JValue)

/-- `mcp_server_fastmcp.py` `_execute_tool` lines 124-164 (request
preparation): the URL is the base URL with trailing slashes stripped,
concatenated with the literal path template — no placeholder substitution. -/
def fastmcpPrepare (base_url : String) (tool : FastTool)
    (arguments : List (String × JValue)) : PreparedRequest :=
  { method := tool.method,
    url := rstripSlash base_url ++ tool.path,
    channel := fastmcpChannel tool.method,
    payload := buildFastmcpData arguments }

/-- `mcp_server_fastmcp.py` `_execute_tool` lines 148-203: the whole HTTP
interaction is inside `try`; `raise_for_status` turns any status ≥ 400 into
a caught exception; the caught exception becomes the failure envelope with
the resolved url/method/parameters as its data. -/
def fastmcpExecute (base_url : String) (tool : FastTool)
    (arguments : List (String × JValue)) (outcome : HttpOutcome) : Envelope :=
  let pre := fastmcpPrepare base_url tool arguments
  let errData : JValue :=
    .obj [("url", .str pre.url), ("method", .str tool.method),
          ("parameters", .obj pre.payload)]
  match outcome with
  | .exn m => .failure (.int 500) (.str (("Request failed: ") ++ m)) errData (.int 1)
  | .resp r =>
    if r.status ≥ 400 then
      .failure (.int 500) (.str (("Request failed: ") ++ r.errText)) errData (.int 1)
    else
      let result : JValue := match r.jsonBody with
        | some v => v
        | none => .str r.text
      .success
        [("status", .int r.status), ("data", result),
         ("message", .str ("Request successful"))] (.int 1)

/-- The per-tool state of a dynamically created tool instance: its bound
method and path, and the identity values taken from the server config
(`self.client_key` etc., Python `None` when unset). -/
structure DynToolSpec where
  method : String
  path : String
  client_key : JValue
  entity_key : JValue
  user_key : JValue

/-- The outgoing data map built by the dynamic `invoke` of
`mcp_server/services.py` (lines 148-157) and `mcp_server_stdio.py`
(lines 123-132): the three identity keys always come first with the
configured values (possibly `None`), then every argument other than `id`
whose value is not `None` is merged in.  `None` values of the identity keys
are NOT removed. -/
def buildDynData (t : DynToolSpec) (kwargs : List (String × JValue)) : List (String × JValue) :=
  let base : List (String × JValue) :=
    [("client_key", t.client_key), ("entity_key", t.entity_key), ("user_key", t.user_key)]
  mergeNonNull [("id")] kwargs base

/-- `mcp_server/services.py` dynamic `invoke` (lines 144-166): no `try`
around the request; a raised exception (network, encoding, JSON decode,
`.get` on a non-object body) propagates to the caller (`Except.error`). -/
def dynInvoke (_t : DynToolSpec) (kwargs : List (String × JValue))
    (outcome : HttpOutcome) : Except String Envelope :=
  match outcome with
  | .exn m => .error m
  | .resp r =>
    match r.jsonBody with
    | none => .error ("JSONDecodeError")
    | some (.obj fields) => .ok (to_jsonrpc fields (pyOptional (dget kwargs ("id"))))
    | some _ => .error ("AttributeError")

/-- The not-found message of `raise ValueError(f"Tool not found")` in
`MCPServer.execute_tool` and `handle_call_tool`. -/
def toolNotFoundMsg (name : String) : String :=
  ("Tool \x27") ++ name ++ ("\x27 not found")

/-- `mcp_server/services.py` `MCPServer.execute_tool` lines 200-223: the
unknown-name check RAISES `ValueError` before the `try`; only exceptions
raised by `invoke` of a found tool are converted into a failure envelope. -/
def execute_tool (tools : List (String × DynToolSpec)) (tool_name : String)
    (parameters : List (String × JValue)) (outcome : HttpOutcome) :
    Except String Envelope :=
  match dget tools tool_name with
  | none => .error (toolNotFoundMsg tool_name)
  | some t =>
    match dynInvoke t parameters outcome with
    | .ok env => .ok env
    | .error e =>
      .ok (.failure (.int 500) (.str (("Tool execution failed: ") ++ e)) (.obj [])
        (pyGetD parameters ("id") (.int (-1))))

/-- The failure envelope built by the `except` branch of the stdio dynamic
`invoke`. -/
def requestFailed (m : String) (kwargs : List (String × JValue)) : Envelope :=
  .failure (.int 500) (.str (("Request failed: ") ++ m)) (.obj [])
    (pyGetD kwargs ("id") (.int (-1)))

/-- `mcp_server_stdio.py` dynamic `invoke` (lines 119-153): the request,
`res.json() if res.content else an empty object`, and `to_jsonrpc` are all
inside `try`, so every exception becomes the failure envelope. -/
def stdioInvoke (_t : DynToolSpec) (kwargs : List (String × JValue))
    (outcome : HttpOutcome) : Envelope :=
  match outcome with
  | .exn m => requestFailed m kwargs
  | .resp r =>
    let body : Except String JValue :=
      if r.hasContent then
        match r.jsonBody with
        | some v => .ok v
        | none => .error ("JSONDecodeError")
      else .ok (.obj [])
    match body with
    | .error m => requestFailed m kwargs
    | .ok (.obj fields) => to_jsonrpc fields (pyOptional (dget kwargs ("id")))
    | .ok _ => requestFailed ("AttributeError") kwargs

/-- `mcp_server_stdio.py` `handle_call_tool` lines 197-223: the unknown-name
check RAISES `ValueError` before the `try`; a found tool's `invoke` is total
(its own `try` catches everything), so it always yields an envelope. -/
def handle_call_tool (tools : List (String × DynToolSpec)) (name : String)
    (arguments : List (String × JValue)) (outcome : HttpOutcome) :
    Except String Envelope :=
  match dget tools name with
  | none => .error (toolNotFoundMsg name)
  | some t => .ok (stdioInvoke t arguments outcome)

/-- `Except.isOk` for our dispatcher results. -/
def isOkE {ε α : Type} : Except ε α → Bool
  | .ok _ => true
  | .error _ => false

/-- Python `str[0].upper() + str[1:]`: first character uppercased, rest kept. -/
def capFirst (s : String) : String :=
  match s.data with
  | [] => ""
  | c :: rest => String.mk (c.toUpper :: rest)

/-- Python `str.capitalize()`: first character uppercased, rest lowercased. -/
def pyCapitalize (s : String) : String :=
  match s.data with
  | [] => ""
  | c :: rest => String.mk (c.toUpper :: rest.map Char.toLower)

/-- Split a character list at every occurrence of the separator character
(Python `str.split(sep)` for a one-character separator). -/
def splitChars (sep : Char) : List Char → List (List Char)
  | [] => [[]]
  | x :: xs =>
    let r := splitChars sep xs
    if x = sep then [] :: r
    else
      match r with
      | [] => [[x]]
      | h :: t => (x :: h) :: t

/-- Python `path.split('/')`. -/
def pySplitSlash (s : String) : List String :=
  (splitChars '/' s.data).map String.mk

/-- The segment filter of `_generate_tool_name`: non-empty and not starting
with an opening brace (`part and not part.startswith` on the brace). -/
def nonParamSegment (part : String) : Bool :=
  match part.data with
  | [] => false
  | c :: _ => c != '\x7b'

/-- `tools_generator/services.py` `YAMLGenerator._generate_tool_name` lines
401-422: capitalize a non-empty `operation_id` and append `Tool`; otherwise
combine the capitalized method with the capitalized last non-parametric path
segment (or the literal `resource`). -/
def generate_tool_name (operation_id method path : String) : String :=
  if operation_id ≠ "" then
    capFirst operation_id ++ ("Tool")
  else
    let m := pyLower method
    let path_parts := (pySplitSlash path).filter nonParamSegment
    let resource := path_parts.getLast?.getD ("resource")
    pyCapitalize m ++ pyCapitalize resource ++ ("Tool")

/-- Last element of a list satisfying a predicate, phrased as the claim
phrases it ("the last slash-delimited path segment that does not start with
a brace"). -/
def lastMatching (p : String → Bool) : List String → Option String
  | [] => none
  | x :: xs =>
    match lastMatching p xs with
    | some r => some r
    | none => if p x then some x else none

/-- The tool-name synthesis exactly as the claim words it, used to compare
with the translated source function. -/
def claim_tool_name (operation_id method path : String) : String :=
  if operation_id ≠ "" then
    capFirst operation_id ++ ("Tool")
  else
    let seg := (lastMatching nonParamSegment (pySplitSlash path)).getD ("resource")
    pyCapitalize (pyLower method) ++ pyCapitalize seg ++ ("Tool")

/-- The `schema` object of a parameter, restricted to the two fields
`_get_parameter_type` reads: `schema.get('type')` and
`schema.get('items', {}).get('type')` (`none` models an absent key). -/
structure ParamSchema where
  stype : Option String := none
  itemsType : Option String := none

/-- A parameter document as read by `_get_parameter_type`: the optional
nested `schema` (OpenAPI 3.x), the parameter's own `type` and its own
`items.type` (Swagger 2.0). -/
structure OpParam where
  schema : Option ParamSchema := none
  type : Option String := none
  itemsType : Option String := none

/-- Python truthiness of `dict.get(key)` for a string-valued key. -/
def optStrTruthy : Option String → Bool
  | none => false
  | some s => s != ""

/-- `tools_generator/services.py` `SwaggerParser._get_parameter_type` lines
187-216.  Note the items-type resolution: `items_type` is first read from
`schema.get('items', {}).get('type', 'string')` — because of the early
`'string'` default the Swagger 2.0 fallback below it only runs when
`schema.items.type` is present and falsy. -/
def get_parameter_type (param : OpParam) : String :=
  let schemaType : Option String := param.schema.bind (fun s => s.stype)
  let param_type : String :=
    if optStrTruthy schemaType then schemaType.getD ("")
    else param.type.getD ("string")
  if param_type == "array" then
    let items_type0 := (param.schema.bind (fun s => s.itemsType)).getD ("string")
    let items_type :=
      if items_type0 == "" then param.itemsType.getD ("string") else items_type0
    ("array[") ++ items_type ++ ("]")
  else if param_type == "file" then ("file")
  else if param_type == "" then ("string") else param_type

/-- A parsed specification document, restricted to the fields
`_basic_spec_validation` reads.  The version fields are modelled as optional
strings, `info` and `paths` as optional JSON values. -/
inductive SpecDoc where
  | notObject : SpecDoc
  | object (swagger : Option String) (openapi : Option String)
      (info : Option JValue) (paths : Option JValue) : SpecDoc

/-- Python truthiness of `dict.get(key)` for a JSON-valued key. -/
def optTruthy : Option JValue → Bool
  | none => false
  | some v => v.truthy

/-- `tools_generator/services.py` `SwaggerParser._basic_spec_validation`
lines 71-96: raises for a non-object, for a missing (or falsy) version
field, and for a missing (or falsy) `info`; a missing `paths` and an
unexpected version format are only logged warnings. -/
def basic_spec_validation : SpecDoc → Except String Unit
  | .notObject => .error ("Specification must be a JSON object")
  | .object sw op info _paths =>
    if optStrTruthy sw = false ∧ optStrTruthy op = false then
      .error ("Missing \x27swagger\x27 or \x27openapi\x27 version field")
    else if optTruthy info = false then
      .error ("Missing \x27info\x27 section")
    else
      .ok ()

/-- The outcome of the optional strict Swagger 2.0 meta-schema validation
attempted by `fetch_swagger_spec`. -/
inductive StrictOutcome where
  | unavailable : StrictOutcome
  | passes : StrictOutcome
  | fails (msg : String) : StrictOutcome

/-- `tools_generator/services.py` `SwaggerParser.fetch_swagger_spec` lines
49-64 (validation stage, after a successful fetch and parse): basic
validation failures are re-raised (wrapped by the outer `except`); the
strict validation is wrapped in its own `try` whose failures are logged and
swallowed. -/
def fetch_validate (spec : SpecDoc) (strict : StrictOutcome) : Except String SpecDoc :=
  match basic_spec_validation spec with
  | .error e => .error (("Error parsing Swagger spec: ") ++ e)
  | .ok _ =>
    match strict with
    | .fails _ => .ok spec
    | _ => .ok spec

/-- The structural-validity condition the claim describes: the parsed
document is an object with a truthy version field and a truthy `info`
(the presence of `paths` does not matter). -/
def specStructValid : SpecDoc → Bool
  | .notObject => false
  | .object sw op info _ => (optStrTruthy sw || optStrTruthy op) && optTruthy info

/-- A tool property entry of the serialized manifest
(`{type, description}`, both optional in the model). -/
structure ManifestProp where
  type : Option String := none
  description : Option String := none

/-- The `parameters` value of a manifest tool entry
(`{type: object, properties, required}`). -/
structure ManifestParams where
  properties : List (String × ManifestProp) := []
  required : List String := []

/-- The loop body of the dynamic `get_parameters` in `mcp_server/services.py`
lines 121-142 (identical in `mcp_server_stdio.py` lines 96-117): walk the
manifest properties, skip the identity names, and collect the remaining
properties and those of them that the manifest marks required. -/
def collectExtra (req : List String) :
    List (String × ManifestProp) → List (String × Property) × List String
  | [] => ([], [])
  | kv :: rest =>
    if kv.1 ∈ identityKeys then collectExtra req rest
    else
      let tail := collectExtra req rest
      ((kv.1, { type := kv.2.type.getD ("string"),
                description := kv.2.description.getD ("") }) :: tail.1,
       if kv.1 ∈ req then kv.1 :: tail.2 else tail.2)

/-- The dynamic tool's `get_parameters`: the manifest parameters, with the
identity names filtered out, passed to `RestApiParameters`. -/
def dynGetParameters (mp : ManifestParams) : Parameters :=
  if mp.properties.isEmpty then restApiParameters [] []
  else
    let extra := collectExtra mp.required mp.properties
    restApiParameters extra.1 extra.2

/-- A parameter of an extracted endpoint as the YAML generator reads it
(`name`, `in`, `required`, resolved `type`, `description`). -/
structure EndpointParam where
  name : String
  location : String
  required : Bool
  type : Option String := none
  description : Option String := none

/-- The request-body schema as the YAML generator reads it
(`schema.type`, `schema.properties`, `schema.required`). -/
structure BodySchema where
  stype : Option String := none
  properties : List (String × ManifestProp) := []
  required : List String := []

/-- An extracted endpoint, restricted to the fields
`_generate_tool_parameters` and `_generate_tool_name` read.
`request_body_schema = none` models a falsy `request_body` or a falsy
`schema` inside it. -/
structure Endpoint where
  path : String
  method : String
  operation_id : String := ""
  parameters : List EndpointParam := []
  request_body_schema : Option BodySchema := none

/-- The manifest property built for one endpoint parameter. -/
def epProp (p : EndpointParam) : ManifestProp :=
  { type := some (p.type.getD ("string")),
    description := some (p.description.getD ("")) }

/-- One pass of `_generate_tool_parameters` over the endpoint's parameters,
keeping those in the given location, in order. -/
def addLocParams (loc : String) : List EndpointParam → ManifestParams → ManifestParams
  | [], mp => mp
  | p :: rest, mp =>
    addLocParams loc rest
      (if p.location = loc then
        { properties := dinsert mp.properties p.name (epProp p),
          required := if p.required then mp.required ++ [p.name] else mp.required }
       else mp)

/-- The property loop of `_add_request_body_parameters` lines 461-475: each
schema property becomes a manifest property, required when the schema lists
its name. -/
def addBodyProps (req : List String) :
    List (String × ManifestProp) → ManifestParams → ManifestParams
  | [], mp => mp
  | pr :: rest, mp =>
    addBodyProps req rest
      { properties := dinsert mp.properties pr.1
          { type := some (pr.2.type.getD ("string")),
            description := some (pr.2.description.getD ("")) },
        required := if pr.1 ∈ req then mp.required ++ [pr.1] else mp.required }

/-- `_add_request_body_parameters` applied to the optional schema: only
schemas whose `type` is `object` contribute. -/
def addBodyParams : Option BodySchema → ManifestParams → ManifestParams
  | none, mp => mp
  | some sch, mp =>
    if sch.stype = some ("object") then addBodyProps sch.required sch.properties mp
    else mp

/-- `tools_generator/services.py` `YAMLGenerator._generate_tool_parameters`
lines 424-459: path parameters, then query parameters, then request-body
properties.  No identity parameter is injected here. -/
def genToolParameters (e : Endpoint) : ManifestParams :=
  let mp1 := addLocParams ("path") e.parameters { properties := [], required := [] }
  let mp2 := addLocParams ("query") e.parameters mp1
  addBodyParams e.request_body_schema mp2


theorem mem_dinsert {α : Type} {l : List (String × α)} {key a : String} {v b : α}
    (h : (a, b) ∈ dinsert l key v) : (a, b) ∈ l ∨ (a = key ∧ b = v) := by
  induction l with
  | nil =>
    right
    simpa [dinsert, Prod.ext_iff] using h
  | cons kw rest ih =>
    obtain ⟨k, w⟩ := kw
    by_cases hk : k = key
    · rw [dinsert, if_pos hk] at h
      rcases List.mem_cons.mp h with h1 | h1
      · right
        simpa [Prod.ext_iff] using h1
      · left
        exact List.mem_cons_of_mem _ h1
    · rw [dinsert, if_neg hk] at h
      rcases List.mem_cons.mp h with h1 | h1
      · left
        exact List.mem_cons.mpr (Or.inl h1)
      · rcases ih h1 with h2 | h2
        · left
          exact List.mem_cons_of_mem _ h2
        · right
          exact h2

theorem mem_dinsert_of_ne {α : Type} {l : List (String × α)} {key a : String} {v b : α}
    (h : (a, b) ∈ l) (hne : a ≠ key) : (a, b) ∈ dinsert l key v := by
  induction l with
  | nil => cases h
  | cons kw rest ih =>
    obtain ⟨k, w⟩ := kw
    by_cases hk : k = key
    · rw [dinsert, if_pos hk]
      rcases List.mem_cons.mp h with h1 | h1
      · exact absurd ((Prod.ext_iff.mp h1).1.trans hk) hne
      · exact List.mem_cons_of_mem _ h1
    · rw [dinsert, if_neg hk]
      rcases List.mem_cons.mp h with h1 | h1
      · exact List.mem_cons.mpr (Or.inl h1)
      · exact List.mem_cons_of_mem _ (ih h1)

theorem mem_dinsert_self {α : Type} (l : List (String × α)) (key : String) (v : α) :
    (key, v) ∈ dinsert l key v := by
  induction l with
  | nil => simp [dinsert]
  | cons kw rest ih =>
    obtain ⟨k, w⟩ := kw
    by_cases hk : k = key
    · rw [dinsert, if_pos hk]
      exact List.mem_cons_self _ _
    · rw [dinsert, if_neg hk]
      exact List.mem_cons_of_mem _ ih

theorem dget_dinsert_ne {α : Type} {l : List (String × α)} {key a : String} (v : α)
    (hne : key ≠ a) : dget (dinsert l key v) a = dget l a := by
  induction l with
  | nil => simp [dinsert, dget, hne]
  | cons kw rest ih =>
    obtain ⟨k, w⟩ := kw
    by_cases hk : k = key
    · rw [dinsert, if_pos hk]
      simp [dget, hne, hk]
    · rw [dinsert, if_neg hk]
      simp [dget, ih]

theorem dinsert_append_of_not_mem {α : Type} {base t : List (String × α)} {key : String}
    {v : α} (h : ∀ kv ∈ base, kv.1 ≠ key) :
    dinsert (base ++ t) key v = base ++ dinsert t key v := by
  induction base with
  | nil => rfl
  | cons kw rest ih =>
    obtain ⟨k, w⟩ := kw
    have hk : k ≠ key := h (k, w) (List.mem_cons_self _ _)
    rw [List.cons_append, dinsert, if_neg hk, List.cons_append,
      ih (fun kv hkv => h kv (List.mem_cons_of_mem _ hkv))]

theorem foldl_dinsert_append {α : Type} {base : List (String × α)}
    (extra : List (String × α)) (h : ∀ kv ∈ extra, ∀ kw ∈ base, kw.1 ≠ kv.1)
    (t : List (String × α)) :
    extra.foldl (fun acc kv => dinsert acc kv.1 kv.2) (base ++ t) =
      base ++ extra.foldl (fun acc kv => dinsert acc kv.1 kv.2) t := by
  induction extra generalizing t with
  | nil => rfl
  | cons kv rest ih =>
    simp only [List.foldl_cons]
    rw [dinsert_append_of_not_mem (fun kw hkw => h kv (List.mem_cons_self _ _) kw hkw),
      ih (fun kv' hkv' => h kv' (List.mem_cons_of_mem _ hkv'))]

theorem dictUpdate_split {α : Type} {base extra : List (String × α)}
    (h : ∀ kv ∈ extra, ∀ kw ∈ base, kw.1 ≠ kv.1) :
    dictUpdate base extra = base ++ dictUpdate [] extra := by
  have hfold :
      extra.foldl (fun acc kv => dinsert acc kv.1 kv.2) (base ++ []) =
        base ++ extra.foldl (fun acc kv => dinsert acc kv.1 kv.2) [] :=
    foldl_dinsert_append extra h []
  simpa [dictUpdate] using hfold

theorem collectExtra_keys {req : List String} :
    ∀ {l : List (String × ManifestProp)} {kv : String × Property},
      kv ∈ (collectExtra req l).1 → kv.1 ∉ identityKeys := by
  intro l
  induction l with
  | nil => intro kv h; cases h
  | cons kw rest ih =>
    intro kv h
    by_cases hk : kw.1 ∈ identityKeys
    · rw [collectExtra, if_pos hk] at h
      exact ih h
    · rw [collectExtra, if_neg hk] at h
      rcases List.mem_cons.mp h with h1 | h1
      · rw [h1]
        exact hk
      · exact ih h1

theorem mergeNonNull_mem_skip {skip : List String} {k : String} (hk : k ∈ skip) :
    ∀ (args acc : List (String × JValue)) (w : JValue),
      ((k, w) ∈ mergeNonNull skip args acc ↔ (k, w) ∈ acc) := by
  intro args
  induction args with
  | nil =>
    intro acc w
    rfl
  | cons kv rest ih =>
    intro acc w
    rw [mergeNonNull]
    by_cases hg : kv.1 ∉ skip ∧ kv.2.isNull = false
    · rw [if_pos hg, ih]
      constructor
      · intro hmem
        rcases mem_dinsert hmem with h1 | h1
        · exact h1
        · exact absurd (h1.1 ▸ hk) hg.1
      · intro hmem
        exact mem_dinsert_of_ne hmem (fun he => hg.1 (he ▸ hk))
    · rw [if_neg hg, ih]

theorem mergeNonNull_mem_sub {skip : List String} :
    ∀ {args acc : List (String × JValue)} {a : String} {b : JValue},
      (a, b) ∈ mergeNonNull skip args acc →
      (a, b) ∈ acc ∨ ((a, b) ∈ args ∧ a ∉ skip ∧ b.isNull = false) := by
  intro args
  induction args with
  | nil =>
    intro acc a b h
    exact Or.inl h
  | cons kv rest ih =>
    intro acc a b h
    rw [mergeNonNull] at h
    by_cases hg : kv.1 ∉ skip ∧ kv.2.isNull = false
    · rw [if_pos hg] at h
      rcases ih h with h1 | h1
      · rcases mem_dinsert h1 with h2 | h2
        · exact Or.inl h2
        · refine Or.inr ⟨?_, h2.1 ▸ hg.1, h2.2 ▸ hg.2⟩
          have : (a, b) = kv := Prod.ext h2.1 h2.2
          rw [this]
          exact List.mem_cons_self _ _
      · exact Or.inr ⟨List.mem_cons_of_mem _ h1.1, h1.2⟩
    · rw [if_neg hg] at h
      rcases ih h with h1 | h1
      · exact Or.inl h1
      · exact Or.inr ⟨List.mem_cons_of_mem _ h1.1, h1.2⟩

theorem mergeNonNull_key_preserved {skip : List String} {k : String} :
    ∀ {args acc : List (String × JValue)},
      (∃ w, (k, w) ∈ acc) → ∃ w, (k, w) ∈ mergeNonNull skip args acc := by
  intro args
  induction args with
  | nil =>
    intro acc h
    exact h
  | cons kv rest ih =>
    intro acc h
    rw [mergeNonNull]
    by_cases hg : kv.1 ∉ skip ∧ kv.2.isNull = false
    · rw [if_pos hg]
      obtain ⟨w, hw⟩ := h
      by_cases he : k = kv.1
      · exact ih ⟨kv.2, he ▸ mem_dinsert_self _ _ _⟩
      · exact ih ⟨w, mem_dinsert_of_ne hw he⟩
    · rw [if_neg hg]
      exact ih h

theorem mergeNonNull_nonnull_key_preserved {skip : List String} {k : String} :
    ∀ {args acc : List (String × JValue)},
      (∃ w, (k, w) ∈ acc ∧ w.isNull = false) →
      ∃ w, (k, w) ∈ mergeNonNull skip args acc ∧ w.isNull = false := by
  intro args
  induction args with
  | nil =>
    intro acc h
    exact h
  | cons kv rest ih =>
    intro acc h
    rw [mergeNonNull]
    by_cases hg : kv.1 ∉ skip ∧ kv.2.isNull = false
    · rw [if_pos hg]
      obtain ⟨w, hw, hnn⟩ := h
      by_cases he : k = kv.1
      · exact ih ⟨kv.2, he ▸ mem_dinsert_self _ _ _, hg.2⟩
      · exact ih ⟨w, mem_dinsert_of_ne hw he, hnn⟩
    · rw [if_neg hg]
      exact ih h

theorem mergeNonNull_keeps {skip : List String} {k : String} {v : JValue} :
    ∀ {args acc : List (String × JValue)},
      (k, v) ∈ args → k ∉ skip → v.isNull = false →
      ∃ w, (k, w) ∈ mergeNonNull skip args acc ∧ w.isNull = false := by
  intro args
  induction args with
  | nil =>
    intro acc h
    cases h
  | cons kv rest ih =>
    intro acc h hks hnn
    rcases List.mem_cons.mp h with h1 | h1
    · subst h1
      rw [mergeNonNull, if_pos (⟨hks, hnn⟩ : k ∉ skip ∧ JValue.isNull v = false)]
      exact mergeNonNull_nonnull_key_preserved ⟨v, mem_dinsert_self _ _ _, hnn⟩
    · rw [mergeNonNull]
      by_cases hg : kv.1 ∉ skip ∧ kv.2.isNull = false
      · rw [if_pos hg]
        exact ih h1 hks hnn
      · rw [if_neg hg]
        exact ih h1 hks hnn

theorem addLocParams_required_sub {loc : String} :
    ∀ {ps : List EndpointParam} {mp : ManifestParams} {a : String},
      a ∈ (addLocParams loc ps mp).required →
      a ∈ mp.required ∨ ∃ p ∈ ps, p.name = a := by
  intro ps
  induction ps with
  | nil =>
    intro mp a h
    exact Or.inl h
  | cons p rest ih =>
    intro mp a h
    rw [addLocParams] at h
    rcases ih h with h1 | h1
    · by_cases hl : p.location = loc
      · rw [if_pos hl] at h1
        have h2 : a ∈ (if p.required then mp.required ++ [p.name] else mp.required) := h1
        by_cases hr : p.required = true
        · rw [if_pos hr] at h2
          rcases List.mem_append.mp h2 with h3 | h3
          · exact Or.inl h3
          · exact Or.inr ⟨p, List.mem_cons_self _ _, (List.mem_singleton.mp h3).symm⟩
        · rw [if_neg hr] at h2
          exact Or.inl h2
      · rw [if_neg hl] at h1
        exact Or.inl h1
    · obtain ⟨q, hq, hqa⟩ := h1
      exact Or.inr ⟨q, List.mem_cons_of_mem _ hq, hqa⟩

theorem addLocParams_dget_none {loc k : String} :
    ∀ {ps : List EndpointParam} {mp : ManifestParams},
      dget mp.properties k = none → (∀ p ∈ ps, p.name ≠ k) →
      dget (addLocParams loc ps mp).properties k = none := by
  intro ps
  induction ps with
  | nil =>
    intro mp h _
    exact h
  | cons p rest ih =>
    intro mp h hname
    rw [addLocParams]
    refine ih ?_ (fun q hq => hname q (List.mem_cons_of_mem _ hq))
    by_cases hl : p.location = loc
    · rw [if_pos hl]
      have h2 : dget (dinsert mp.properties p.name (epProp p)) k = none := by
        rw [dget_dinsert_ne _ (hname p (List.mem_cons_self _ _))]
        exact h
      exact h2
    · rw [if_neg hl]
      exact h

theorem addBodyProps_required_sub {req : List String} :
    ∀ {prs : List (String × ManifestProp)} {mp : ManifestParams} {a : String},
      a ∈ (addBodyProps req prs mp).required →
      a ∈ mp.required ∨ ∃ pr ∈ prs, pr.1 = a := by
  intro prs
  induction prs with
  | nil =>
    intro mp a h
    exact Or.inl h
  | cons pr rest ih =>
    intro mp a h
    rw [addBodyProps] at h
    rcases ih h with h1 | h1
    · have h2 : a ∈ (if pr.1 ∈ req then mp.required ++ [pr.1] else mp.required) := h1
      by_cases hr : pr.1 ∈ req
      · rw [if_pos hr] at h2
        rcases List.mem_append.mp h2 with h3 | h3
        · exact Or.inl h3
        · exact Or.inr ⟨pr, List.mem_cons_self _ _, (List.mem_singleton.mp h3).symm⟩
      · rw [if_neg hr] at h2
        exact Or.inl h2
    · obtain ⟨q, hq, hqa⟩ := h1
      exact Or.inr ⟨q, List.mem_cons_of_mem _ hq, hqa⟩

theorem addBodyProps_dget_none {req : List String} {k : String} :
    ∀ {prs : List (String × ManifestProp)} {mp : ManifestParams},
      dget mp.properties k = none → (∀ pr ∈ prs, pr.1 ≠ k) →
      dget (addBodyProps req prs mp).properties k = none := by
  intro prs
  induction prs with
  | nil =>
    intro mp h _
    exact h
  | cons pr rest ih =>
    intro mp h hname
    rw [addBodyProps]
    refine ih ?_ (fun q hq => hname q (List.mem_cons_of_mem _ hq))
    have h2 : dget (dinsert mp.properties pr.1
        { type := some (pr.2.type.getD ("string")),
          description := some (pr.2.description.getD ("")) }) k = none := by
      rw [dget_dinsert_ne _ (hname pr (List.mem_cons_self _ _))]
      exact h
    exact h2

theorem filter_getLast?_eq_lastMatching (p : String → Bool) :
    ∀ l : List String, (l.filter p).getLast? = lastMatching p l := by
  intro l
  induction l with
  | nil => rfl
  | cons x xs ih =>
    rw [lastMatching, List.filter_cons]
    by_cases hp : p x = true
    · rw [if_pos hp, List.getLast?_cons, ih]
      cases hm : lastMatching p xs with
      | none => simp [hp]
      | some r => simp
    · rw [if_neg hp, ih]
      cases hm : lastMatching p xs with
      | none => simp [hp]
      | some r => simp

/-- Claim C5: tool-name synthesis is deterministic: a non-empty
`operation_id` gives its first character uppercased plus the suffix `Tool`;
otherwise the capitalized method is concatenated with the capitalized last
slash-delimited path segment not starting with a brace (literal `resource`
when none exists) and the suffix `Tool`; in particular `POST /pet` with no
operation id yields `PostPetTool` and `getPetById` yields `GetPetByIdTool`. -/
theorem c5_tool_name_synthesis :
    (∀ operation_id method path : String,
      generate_tool_name operation_id method path =
        claim_tool_name operation_id method path) ∧
    generate_tool_name ("") ("POST") ("/pet") = ("PostPetTool") ∧
    generate_tool_name ("getPetById") ("GET") ("/pet/\x7bpetId\x7d") = ("GetPetByIdTool") := by
  refine ⟨?_, by decide, by decide⟩
  intro oid m p
  by_cases h : oid ≠ ""
  · rw [generate_tool_name, claim_tool_name, if_pos h, if_pos h]
  · simp only [generate_tool_name, claim_tool_name, if_neg h,
      ← filter_getLast?_eq_lastMatching]

/-- Claim C6: spec validation raises exactly for structural defects (not an
object, no truthy `swagger`/`openapi` version field, no truthy `info`) and
its outcome never depends on the strict meta-schema validation outcome; a
document without `paths` still validates. -/
theorem c6_validation_policy :
    ∀ (spec : SpecDoc) (s1 s2 : StrictOutcome),
      fetch_validate spec s1 = fetch_validate spec s2 ∧
      isOkE (fetch_validate spec s1) = specStructValid spec ∧
      isOkE (fetch_validate
        (SpecDoc.object (some ("2.0")) none (some (.obj [("title", .str ("x"))])) none)
        (StrictOutcome.fails ("meta-schema violation"))) = true := by
  intro spec s1 s2
  refine ⟨?_, ?_, rfl⟩
  · cases h : basic_spec_validation spec with
    | error e => simp [fetch_validate, h]
    | ok u => cases s1 <;> cases s2 <;> simp [fetch_validate, h]
  · cases spec with
    | notObject => cases s1 <;> rfl
    | object sw op info paths =>
      cases s1 <;>
        cases hsw : optStrTruthy sw <;> cases hop : optStrTruthy op <;>
          cases hinfo : optTruthy info <;>
            simp [fetch_validate, basic_spec_validation, specStructValid, isOkE,
              hsw, hop, hinfo]

/-- Claim C8 counterexample: in the `MCPServer` dynamic-tool path and in the
generated tool classes, a POST/PUT body is passed through the form-encoding
channel (`data=`), not as a JSON-encoded body. -/
theorem c8_counterexample :
    servicesChannel ("POST") = PayloadChannel.formBody ∧
    genClassChannel ("PUT") = PayloadChannel.formBody ∧
    PayloadChannel.formBody ≠ PayloadChannel.jsonBody := by
  refine ⟨by decide, by decide, by decide⟩

/-- Claim C8 (amended): POST/PUT/PATCH carry the merged argument map in the
request body and all other methods carry it as URL query parameters, in
every dispatch path; the body is JSON-encoded in the FastMCP and stdio
dispatchers but form-encoded in the `MCPServer` dynamic-tool path and in
the generated tool classes. -/
theorem c8_method_encoding :
    ∀ method : String,
      (fastmcpChannel method = PayloadChannel.jsonBody ↔ pyUpper method ∈ bodyMethods) ∧
      (stdioChannel method = PayloadChannel.jsonBody ↔ pyUpper method ∈ bodyMethods) ∧
      (servicesChannel method = PayloadChannel.formBody ↔ pyUpper method ∈ bodyMethods) ∧
      (genClassChannel method = PayloadChannel.formBody ↔ pyUpper method ∈ bodyMethods) ∧
      (fastmcpChannel method = PayloadChannel.query ↔ pyUpper method ∉ bodyMethods) ∧
      (stdioChannel method = PayloadChannel.query ↔ pyUpper method ∉ bodyMethods) ∧
      (servicesChannel method = PayloadChannel.query ↔ pyUpper method ∉ bodyMethods) ∧
      (genClassChannel method = PayloadChannel.query ↔ pyUpper method ∉ bodyMethods) := by
  intro m
  by_cases h : pyUpper m ∈ bodyMethods <;>
    simp [fastmcpChannel, stdioChannel, servicesChannel, genClassChannel, h]

/-- Claim C9: parameter-type resolution.  The top-level type is read from
`schema.type`, falling back to the parameter's own `type` and defaulting to
`string`, and `file` maps to `file` — but for a Swagger 2.0 array parameter
(no `schema`, `type: array`, `items.type: integer` on the parameter itself)
the early `'string'` default makes the documented `items.type` fallback dead
code, so the code yields `array[string]` instead of `array[integer]`. -/
theorem c9_items_type_resolution :
    get_parameter_type
        { schema := none, type := some ("array"), itemsType := some ("integer") } =
      ("array[string]") ∧
    get_parameter_type
        { schema := some { stype := some ("array"), itemsType := some ("integer") },
          type := none, itemsType := none } =
      ("array[integer]") ∧
    get_parameter_type
        { schema := some { stype := some ("integer"), itemsType := none },
          type := none, itemsType := none } =
      ("integer") ∧
    get_parameter_type
        { schema := none, type := some ("integer"), itemsType := none } = ("integer") ∧
    get_parameter_type
        { schema := none, type := none, itemsType := none } = ("string") ∧
    get_parameter_type
        { schema := none, type := some ("file"), itemsType := none } = ("file") ∧
    ("array[string]" : String) ≠ ("array[integer]") := by
  refine ⟨rfl, rfl, rfl, rfl, rfl, rfl, by decide⟩

/-- Claim C1 counterexample: dispatching a tool name absent from the loaded
manifest does NOT return a failure envelope — both `MCPServer.execute_tool`
and `handle_call_tool` raise `ValueError` (modelled as `Except.error`)
before their exception-catching blocks, so the exception escapes to the
transport. -/
theorem c1_counterexample :
    execute_tool [] ("GetPetByIdTool") [] (HttpOutcome.exn ("connection refused")) =
      Except.error (toolNotFoundMsg ("GetPetByIdTool")) ∧
    handle_call_tool [] ("GetPetByIdTool") [] (HttpOutcome.exn ("connection refused")) =
      Except.error (toolNotFoundMsg ("GetPetByIdTool")) :=
  ⟨rfl, rfl⟩

/-- Claim C1 (amended): dispatching an unknown tool name raises `ValueError`
past the dispatcher boundary in both the `MCPServer` and the stdio dispatch
paths (the not-found check precedes the `try` block); only once the tool is
found does every execution outcome produce an envelope without raising. -/
theorem c1_unknown_tool_raises :
    ∀ (tools : List (String × DynToolSpec)) (name : String)
      (params args : List (String × JValue)) (outcome : HttpOutcome),
      (dget tools name = none →
        execute_tool tools name params outcome = Except.error (toolNotFoundMsg name) ∧
        handle_call_tool tools name args outcome = Except.error (toolNotFoundMsg name)) ∧
      (∀ t, dget tools name = some t →
        isOkE (execute_tool tools name params outcome) = true ∧
        isOkE (handle_call_tool tools name args outcome) = true) := by
  intro tools name params args outcome
  constructor
  · intro h
    rw [execute_tool, handle_call_tool, h]
    exact ⟨rfl, rfl⟩
  · intro t h
    simp only [execute_tool, handle_call_tool, h]
    refine ⟨?_, rfl⟩
    cases dynInvoke t params outcome <;> rfl

/-- Witness for the amended C1 theorem at a concrete manifest and input. -/
theorem c1_unknown_tool_raises_witness :
    execute_tool [] ("X") [] (HttpOutcome.exn ("boom")) =
      Except.error (toolNotFoundMsg ("X")) ∧
    handle_call_tool [] ("X") [] (HttpOutcome.exn ("boom")) =
      Except.error (toolNotFoundMsg ("X")) :=
  (c1_unknown_tool_raises [] ("X") [] [] (HttpOutcome.exn ("boom"))).1 rfl

/-- Claim C2 counterexample: dispatching `GetPetByIdTool` with
`petId = 42` against `base_url = http://x/v2` does not substitute the
placeholder: the resolved URL keeps the literal template and `petId` stays
in the query payload, contrary to the claimed `GET http://x/v2/pet/42` with
`petId` consumed into the path. -/
theorem c2_counterexample :
    (fastmcpPrepare ("http://x/v2") { method := "GET", path := "/pet/\x7bpetId\x7d" }
        [("petId", JValue.int 42), ("client_key", JValue.str ("c")),
          ("entity_key", JValue.str ("e")), ("user_key", JValue.str ("u"))]).url ≠
      ("http://x/v2/pet/42") ∧
    ("petId", JValue.int 42) ∈
      (fastmcpPrepare ("http://x/v2") { method := "GET", path := "/pet/\x7bpetId\x7d" }
        [("petId", JValue.int 42), ("client_key", JValue.str ("c")),
          ("entity_key", JValue.str ("e")), ("user_key", JValue.str ("u"))]).payload ∧
    (fastmcpPrepare ("http://x/v2") { method := "GET", path := "/pet/\x7bpetId\x7d" }
        [("petId", JValue.int 42), ("client_key", JValue.str ("c")),
          ("entity_key", JValue.str ("e")), ("user_key", JValue.str ("u"))]).channel =
      PayloadChannel.query ∧
    get_api_url ("http://x/v2") ("/pet/\x7bpetId\x7d") = ("http://x/v2/pet/\x7bpetId\x7d") := by
  refine ⟨by decide, ?_, rfl, rfl⟩
  have hp : (fastmcpPrepare ("http://x/v2") { method := "GET", path := "/pet/\x7bpetId\x7d" }
      [("petId", JValue.int 42), ("client_key", JValue.str ("c")),
        ("entity_key", JValue.str ("e")), ("user_key", JValue.str ("u"))]).payload =
      [("client_key", JValue.str ("c")), ("entity_key", JValue.str ("e")),
        ("user_key", JValue.str ("u")), ("petId", JValue.int 42)] := rfl
  rw [hp]
  exact List.mem_cons_of_mem _ (List.mem_cons_of_mem _ (List.mem_cons_of_mem _
    (List.mem_cons_self _ _)))

/-- Claim C2 (amended): the FastMCP dispatcher performs no placeholder
substitution — the request URL is the base URL with trailing slashes
stripped concatenated with the literal path template, independent of the
arguments; in scenario B the prepared request is
`GET http://x/v2/pet/(petId template)` with query payload
`client_key=c, entity_key=e, user_key=u, petId=42`. -/
theorem c2_no_substitution :
    (∀ (base : String) (tool : FastTool) (args1 args2 : List (String × JValue)),
      (fastmcpPrepare base tool args1).url = (fastmcpPrepare base tool args2).url) ∧
    (∀ (base : String) (tool : FastTool) (args : List (String × JValue)),
      (fastmcpPrepare base tool args).url = rstripSlash base ++ tool.path) ∧
    fastmcpPrepare ("http://x/v2") { method := "GET", path := "/pet/\x7bpetId\x7d" }
        [("petId", JValue.int 42), ("client_key", JValue.str ("c")),
          ("entity_key", JValue.str ("e")), ("user_key", JValue.str ("u"))] =
      { method := "GET", url := "http://x/v2/pet/\x7bpetId\x7d",
        channel := PayloadChannel.query,
        payload := [("client_key", JValue.str ("c")), ("entity_key", JValue.str ("e")),
          ("user_key", JValue.str ("u")), ("petId", JValue.int 42)] } :=
  ⟨fun _ _ _ _ => rfl, fun _ _ _ => rfl, rfl⟩

/-- Claim C3 counterexample: in the stdio/`MCPServer` dispatch path an HTTP
response with status 500/404 whose JSON body lacks an `error` key is NOT
turned into a failure envelope — it yields a success envelope (even
reporting the default status 200), because the envelope choice only looks
at the decoded body. -/
theorem c3_counterexample :
    isFailureEnv (stdioInvoke
      { method := "GET", path := "/pet", client_key := JValue.null,
        entity_key := JValue.null, user_key := JValue.null } []
      (HttpOutcome.resp
        { status := 500, hasContent := true, jsonBody := some (JValue.obj []),
          text := "\x7b\x7d", errText := "500 Server Error" })) = false ∧
    execute_tool
        [(("T"), { method := "GET", path := "/pet", client_key := JValue.null,
                   entity_key := JValue.null, user_key := JValue.null })] ("T") []
        (HttpOutcome.resp
          { status := 404, hasContent := true, jsonBody := some (JValue.obj []),
            text := "\x7b\x7d", errText := "404 Client Error" }) =
      Except.ok (Envelope.success
        [("msg", JValue.str ("")), ("data", JValue.arr []),
          ("status", JValue.int 200), ("type", JValue.str ("json")),
          ("total_count", JValue.int (-1))] (JValue.int (-1))) :=
  ⟨rfl, rfl⟩

/-- Claim C3 (amended): network-level and encoding exceptions are converted
into failure envelopes at the dispatcher boundary in every dispatch path,
and the FastMCP dispatcher also converts any status ≥ 400 into a failure
envelope via `raise_for_status`; in the `MCPServer`/stdio paths, however,
the success/failure split of a received response is decided by the decoded
body alone. -/
theorem c3_exception_conversion :
    ∀ (t : DynToolSpec) (tools : List (String × DynToolSpec)) (name m base : String)
      (ft : FastTool) (params args : List (String × JValue)) (r : HttpResponse),
      isFailureEnv (stdioInvoke t args (HttpOutcome.exn m)) = true ∧
      isFailureEnv (fastmcpExecute base ft args (HttpOutcome.exn m)) = true ∧
      (r.status ≥ 400 →
        isFailureEnv (fastmcpExecute base ft args (HttpOutcome.resp r)) = true) ∧
      (dget tools name = some t →
        execute_tool tools name params (HttpOutcome.exn m) =
          Except.ok (Envelope.failure (JValue.int 500)
            (JValue.str (("Tool execution failed: ") ++ m)) (JValue.obj [])
            (pyGetD params ("id") (JValue.int (-1))))) ∧
      (dget tools name = some t →
        handle_call_tool tools name args (HttpOutcome.exn m) =
          Except.ok (requestFailed m args)) := by
  intro t tools name m base ft params args r
  refine ⟨rfl, rfl, ?_, ?_, ?_⟩
  · intro h
    simp only [fastmcpExecute, if_pos h]
    rfl
  · intro h
    simp only [execute_tool, h, dynInvoke]
  · intro h
    simp only [handle_call_tool, h, stdioInvoke]

/-- Witness for the amended C3 theorem at concrete inputs. -/
theorem c3_exception_conversion_witness :
    isFailureEnv (fastmcpExecute ("http://x") { method := "GET", path := "/p" } []
      (HttpOutcome.resp
        { status := 404, hasContent := true, jsonBody := some (JValue.obj []),
          text := "", errText := "404 Client Error" })) = true ∧
    execute_tool
        [(("T"), { method := "GET", path := "/p", client_key := JValue.null,
                   entity_key := JValue.null, user_key := JValue.null })] ("T") []
        (HttpOutcome.exn ("boom")) =
      Except.ok (Envelope.failure (JValue.int 500)
        (JValue.str (("Tool execution failed: ") ++ ("boom"))) (JValue.obj [])
        (pyGetD [] ("id") (JValue.int (-1)))) ∧
    handle_call_tool
        [(("T"), { method := "GET", path := "/p", client_key := JValue.null,
                   entity_key := JValue.null, user_key := JValue.null })] ("T") []
        (HttpOutcome.exn ("boom")) =
      Except.ok (requestFailed ("boom") []) := by
  have h := c3_exception_conversion
    { method := "GET", path := "/p", client_key := JValue.null,
      entity_key := JValue.null, user_key := JValue.null }
    [(("T"), { method := "GET", path := "/p", client_key := JValue.null,
               entity_key := JValue.null, user_key := JValue.null })]
    ("T") ("boom") ("http://x") { method := "GET", path := "/p" } [] []
    { status := 404, hasContent := true, jsonBody := some (JValue.obj []),
      text := "", errText := "404 Client Error" }
  exact ⟨h.2.2.1 (by decide), h.2.2.2.1 rfl, h.2.2.2.2 rfl⟩

/-- Claim C10: in the `MCPServer` dispatch path the envelope depends only on
the decoded JSON body, not on the HTTP status code; `to_jsonrpc` returns a
success envelope exactly when the body's `error` key is absent or falsy, and
otherwise a failure whose code is the body's `status` (default 500) and
whose message is the body's `msg` (default `Internal Server Error`). -/
theorem c10_envelope_from_body_only :
    ∀ (fields : List (String × JValue)) (idArg : Option JValue) (t : DynToolSpec)
      (kwargs : List (String × JValue)) (s1 s2 : Int) (hc1 hc2 : Bool)
      (tx1 tx2 et1 et2 : String),
      dynInvoke t kwargs (HttpOutcome.resp
          { status := s1, hasContent := hc1, jsonBody := some (JValue.obj fields),
            text := tx1, errText := et1 }) =
        dynInvoke t kwargs (HttpOutcome.resp
          { status := s2, hasContent := hc2, jsonBody := some (JValue.obj fields),
            text := tx2, errText := et2 }) ∧
      isSuccessEnv (to_jsonrpc fields idArg) =
        !(pyGetD fields ("error") (JValue.bool false)).truthy ∧
      ((pyGetD fields ("error") (JValue.bool false)).truthy = true →
        to_jsonrpc fields idArg =
          Envelope.failure (pyGetD fields ("status") (JValue.int 500))
            (pyGetD fields ("msg") (JValue.str ("Internal Server Error")))
            (pyGetD fields ("data") (JValue.arr []))
            (idArg.getD (pyGetD fields ("request_id") (JValue.int (-1))))) := by
  intro fields idArg t kwargs s1 s2 hc1 hc2 tx1 tx2 et1 et2
  refine ⟨rfl, ?_, ?_⟩
  · by_cases h : (pyGetD fields ("error") (JValue.bool false)).truthy
    · simp [to_jsonrpc, h, isSuccessEnv]
    · simp [to_jsonrpc, h, isSuccessEnv]
  · intro h
    simp [to_jsonrpc, h]

/-- Witness for the C10 theorem at a concrete error body. -/
theorem c10_envelope_from_body_only_witness :
    to_jsonrpc
        [("error", JValue.bool true), ("status", JValue.int 404),
          ("msg", JValue.str ("nope"))] none =
      Envelope.failure (JValue.int 404) (JValue.str ("nope")) (JValue.arr [])
        (JValue.int (-1)) := by
  have h := c10_envelope_from_body_only
    [("error", JValue.bool true), ("status", JValue.int 404), ("msg", JValue.str ("nope"))]
    none
    { method := "GET", path := "/p", client_key := JValue.null,
      entity_key := JValue.null, user_key := JValue.null }
    [] 0 1 true false ("") ("") ("") ("")
  exact h.2.2 rfl

theorem base_key_mem : ∀ kw ∈ baseProperties, kw.1 ∈ identityKeys := by
  intro kw hkw
  fin_cases hkw <;> decide

theorem genToolParameters_required_sub {e : Endpoint} {a : String}
    (h : a ∈ (genToolParameters e).required) :
    (∃ p ∈ e.parameters, p.name = a) ∨
    (∃ sch, e.request_body_schema = some sch ∧ ∃ pr ∈ sch.properties, pr.1 = a) := by
  simp only [genToolParameters] at h
  have peel : ∀ {mp : ManifestParams},
      a ∈ (addLocParams ("query") e.parameters
        (addLocParams ("path") e.parameters mp)).required →
      a ∈ mp.required ∨ ∃ p ∈ e.parameters, p.name = a := by
    intro mp hmem
    rcases addLocParams_required_sub hmem with h1 | h1
    · rcases addLocParams_required_sub h1 with h2 | h2
      · exact Or.inl h2
      · exact Or.inr h2
    · exact Or.inr h1
  cases hrb : e.request_body_schema with
  | none =>
    rw [hrb] at h
    simp only [addBodyParams] at h
    rcases peel h with h1 | h1
    · exact absurd h1 (List.not_mem_nil a)
    · exact Or.inl h1
  | some sch =>
    rw [hrb] at h
    simp only [addBodyParams] at h
    by_cases hty : sch.stype = some ("object")
    · rw [if_pos hty] at h
      rcases addBodyProps_required_sub h with h1 | h1
      · rcases peel h1 with h2 | h2
        · exact absurd h2 (List.not_mem_nil a)
        · exact Or.inl h2
      · exact Or.inr ⟨sch, rfl, h1⟩
    · rw [if_neg hty] at h
      rcases peel h with h1 | h1
      · exact absurd h1 (List.not_mem_nil a)
      · exact Or.inl h1

theorem genToolParameters_dget_none {e : Endpoint} {k : String}
    (hp : ∀ p ∈ e.parameters, p.name ≠ k)
    (hb : ∀ sch, e.request_body_schema = some sch → ∀ pr ∈ sch.properties, pr.1 ≠ k) :
    dget (genToolParameters e).properties k = none := by
  simp only [genToolParameters]
  have h0 : dget (({ properties := [], required := [] } : ManifestParams)).properties k =
      none := rfl
  have h1 : dget (addLocParams ("path") e.parameters
      { properties := [], required := [] }).properties k = none :=
    addLocParams_dget_none h0 hp
  have h2 : dget (addLocParams ("query") e.parameters (addLocParams ("path") e.parameters
      { properties := [], required := [] })).properties k = none :=
    addLocParams_dget_none h1 hp
  cases hrb : e.request_body_schema with
  | none =>
    simp only [addBodyParams]
    exact h2
  | some sch =>
    simp only [addBodyParams]
    by_cases hty : sch.stype = some ("object")
    · rw [if_pos hty]
      exact addBodyProps_dget_none h2 (hb sch hrb)
    · rw [if_neg hty]
      exact h2

/-- Claim C4 counterexample: the Tool entry written into the serialized
manifest document for `GET /pet/(petId)` contains only the endpoint's own
parameter `petId` — `client_key`/`entity_key`/`user_key` are neither
properties nor required names there. -/
theorem c4_counterexample :
    genToolParameters
        { path := "/pet/\x7bpetId\x7d", method := "GET", operation_id := "getPetById",
          parameters := [{ name := "petId", location := "path", required := true,
                           type := some ("integer"), description := some ("") }],
          request_body_schema := none } =
      { properties := [("petId", { type := some ("integer"), description := some ("") })],
        required := ["petId"] } ∧
    ¬ ("client_key" ∈ (genToolParameters
        { path := "/pet/\x7bpetId\x7d", method := "GET", operation_id := "getPetById",
          parameters := [{ name := "petId", location := "path", required := true,
                           type := some ("integer"), description := some ("") }],
          request_body_schema := none }).required) ∧
    dget (genToolParameters
        { path := "/pet/\x7bpetId\x7d", method := "GET", operation_id := "getPetById",
          parameters := [{ name := "petId", location := "path", required := true,
                           type := some ("integer"), description := some ("") }],
          request_body_schema := none }).properties ("client_key") = none := by
  refine ⟨rfl, by decide, rfl⟩

/-- Claim C4 (amended): the three identity parameters are always injected —
as the first three properties and the first three required names — into the
parameter schema the running server exposes (built by `get_parameters` via
`RestApiParameters`), regardless of the manifest entry; but the Tool entry
written into the serialized manifest document contains only the endpoint's
own parameters, with no identity injection. -/
theorem c4_identity_injection :
    ∀ (mp : ManifestParams) (e : Endpoint),
      (dynGetParameters mp).required.take 3 = identityKeys ∧
      ((dynGetParameters mp).properties.map Prod.fst).take 3 = identityKeys ∧
      ((∀ p ∈ e.parameters, p.name ∉ identityKeys) →
        (∀ sch, e.request_body_schema = some sch →
          ∀ pr ∈ sch.properties, pr.1 ∉ identityKeys) →
        ∀ k ∈ identityKeys,
          ¬ (k ∈ (genToolParameters e).required) ∧
          dget (genToolParameters e).properties k = none) := by
  intro mp e
  refine ⟨?_, ?_, ?_⟩
  · cases he : mp.properties.isEmpty with
    | true =>
      rw [dynGetParameters, if_pos he]
      rfl
    | false =>
      rw [dynGetParameters, if_neg (by simp [he])]
      rfl
  · cases he : mp.properties.isEmpty with
    | true =>
      rw [dynGetParameters, if_pos he]
      rfl
    | false =>
      rw [dynGetParameters, if_neg (by simp [he])]
      have hdis : ∀ kv ∈ (collectExtra mp.required mp.properties).1,
          ∀ kw ∈ baseProperties, kw.1 ≠ kv.1 := by
        intro kv hkv kw hkw heq
        exact (collectExtra_keys hkv) (heq ▸ base_key_mem kw hkw)
      show ((dictUpdate baseProperties
        (collectExtra mp.required mp.properties).1).map Prod.fst).take 3 = identityKeys
      rw [dictUpdate_split hdis, List.map_append]
      rfl
  · intro hp hb k hk
    constructor
    · intro hmem
      rcases genToolParameters_required_sub hmem with h1 | h1
      · obtain ⟨p, hpe, hpn⟩ := h1
        exact hp p hpe (hpn ▸ hk)
      · obtain ⟨sch, hsch, pr, hpr, hpn⟩ := h1
        exact hb sch hsch pr hpr (hpn ▸ hk)
    · refine genToolParameters_dget_none ?_ ?_
      · intro p hpe heq
        exact hp p hpe (heq ▸ hk)
      · intro sch hsch pr hpr heq
        exact hb sch hsch pr hpr (heq ▸ hk)

/-- Witness for the amended C4 theorem at a concrete manifest entry and
endpoint. -/
theorem c4_identity_injection_witness :
    ¬ ("client_key" ∈ (genToolParameters
        { path := "/pet", method := "GET", operation_id := "",
          parameters := [{ name := "petId", location := "path", required := true,
                           type := some ("integer"), description := some ("") }],
          request_body_schema := none }).required) ∧
    dget (genToolParameters
        { path := "/pet", method := "GET", operation_id := "",
          parameters := [{ name := "petId", location := "path", required := true,
                           type := some ("integer"), description := some ("") }],
          request_body_schema := none }).properties ("client_key") = none := by
  have h := (c4_identity_injection { properties := [], required := [] }
    { path := "/pet", method := "GET", operation_id := "",
      parameters := [{ name := "petId", location := "path", required := true,
                       type := some ("integer"), description := some ("") }],
      request_body_schema := none }).2.2
    (by
      intro p hp
      rw [List.mem_singleton] at hp
      subst hp
      decide)
    (by
      intro sch hsch
      cases hsch)
    ("client_key") (by decide)
  exact h

/-- Claim C7 counterexample: with no arguments supplied, the FastMCP
dispatcher sends an empty argument map — the three identity parameters are
NOT placed into the outgoing request (they were `None` and were dropped);
and in the dynamic-tool paths the identity keys keep their `None` values in
the outgoing map instead of being dropped. -/
theorem c7_counterexample :
    buildFastmcpData [] = [] ∧
    buildDynData
        { method := "POST", path := "/pet", client_key := JValue.null,
          entity_key := JValue.null, user_key := JValue.null } [] =
      [("client_key", JValue.null), ("entity_key", JValue.null),
        ("user_key", JValue.null)] :=
  ⟨rfl, rfl⟩

/-- Claim C7 (amended): in the FastMCP dispatcher every transmitted value is
non-null and an identity key is present exactly when the caller supplied a
non-null value for it, while every non-null non-identity argument survives
into the payload; in the `MCPServer`/stdio dynamic-tool paths the three
identity keys are always present (with the configured values, `None`
included — null identity values are not dropped), null values can occur
only at identity keys, and every other entry comes from a non-null argument
whose key is not `id`. -/
theorem c7_argument_routing :
    (∀ (args : List (String × JValue)) (k : String) (v : JValue),
      (k, v) ∈ buildFastmcpData args → v.isNull = false) ∧
    (∀ (args : List (String × JValue)) (k : String), k ∈ identityKeys →
      ((∃ w, (k, w) ∈ buildFastmcpData args) ↔
        (pyGetD args k JValue.null).isNull = false)) ∧
    (∀ (args : List (String × JValue)) (k : String) (v : JValue),
      (k, v) ∈ args → k ∉ identityKeys → v.isNull = false →
      ∃ w, (k, w) ∈ buildFastmcpData args ∧ w.isNull = false) ∧
    (∀ (t : DynToolSpec) (kwargs : List (String × JValue)) (k : String),
      k ∈ identityKeys → ∃ w, (k, w) ∈ buildDynData t kwargs) ∧
    (∀ (t : DynToolSpec) (kwargs : List (String × JValue)) (k : String) (v : JValue),
      (k, v) ∈ buildDynData t kwargs → v.isNull = true → k ∈ identityKeys) ∧
    (∀ (t : DynToolSpec) (kwargs : List (String × JValue)) (k : String) (v : JValue),
      (k, v) ∈ buildDynData t kwargs → k ∉ identityKeys →
      (k, v) ∈ kwargs ∧ k ≠ ("id") ∧ v.isNull = false) := by
  refine ⟨?_, ?_, ?_, ?_, ?_, ?_⟩
  · intro args k v h
    simp only [buildFastmcpData, List.mem_filter] at h
    simpa using h.2
  · intro args k hk
    have hkc : k = ("client_key") ∨ k = ("entity_key") ∨ k = ("user_key") := by
      simpa [identityKeys] using hk
    constructor
    · rintro ⟨w, hw⟩
      simp only [buildFastmcpData, List.mem_filter] at hw
      have hmem := (mergeNonNull_mem_skip hk args _ w).mp hw.1
      have hnn : w.isNull = false := by simpa using hw.2
      rcases hkc with rfl | rfl | rfl <;>
        · simp [Prod.ext_iff] at hmem
          rw [hmem] at hnn
          exact hnn
    · intro hnn
      refine ⟨pyGetD args k JValue.null, ?_⟩
      simp only [buildFastmcpData, List.mem_filter]
      refine ⟨(mergeNonNull_mem_skip hk args _ _).mpr ?_, by simp [hnn]⟩
      rcases hkc with rfl | rfl | rfl
      · exact List.mem_cons_self _ _
      · exact List.mem_cons_of_mem _ (List.mem_cons_self _ _)
      · exact List.mem_cons_of_mem _ (List.mem_cons_of_mem _ (List.mem_cons_self _ _))
  · intro args k v hin hid hnn
    have hkeep : ∃ w, (k, w) ∈ mergeNonNull identityKeys args
        [("client_key", pyGetD args ("client_key") JValue.null),
          ("entity_key", pyGetD args ("entity_key") JValue.null),
          ("user_key", pyGetD args ("user_key") JValue.null)] ∧ w.isNull = false :=
      mergeNonNull_keeps hin hid hnn
    obtain ⟨w, hw, hwn⟩ := hkeep
    exact ⟨w, List.mem_filter.mpr ⟨hw, by simp [hwn]⟩, hwn⟩
  · intro t kwargs k hk
    have hkc : k = ("client_key") ∨ k = ("entity_key") ∨ k = ("user_key") := by
      simpa [identityKeys] using hk
    simp only [buildDynData]
    apply mergeNonNull_key_preserved
    rcases hkc with rfl | rfl | rfl
    · exact ⟨t.client_key, List.mem_cons_self _ _⟩
    · exact ⟨t.entity_key, List.mem_cons_of_mem _ (List.mem_cons_self _ _)⟩
    · exact ⟨t.user_key,
        List.mem_cons_of_mem _ (List.mem_cons_of_mem _ (List.mem_cons_self _ _))⟩
  · intro t kwargs k v h hnull
    simp only [buildDynData] at h
    rcases mergeNonNull_mem_sub h with h1 | h1
    · simp [Prod.ext_iff] at h1
      rcases h1 with ⟨rfl, _⟩ | ⟨rfl, _⟩ | ⟨rfl, _⟩ <;> decide
    · rw [h1.2.2] at hnull
      cases hnull
  · intro t kwargs k v h hid
    simp only [buildDynData] at h
    rcases mergeNonNull_mem_sub h with h1 | h1
    · exfalso
      apply hid
      simp [Prod.ext_iff] at h1
      rcases h1 with ⟨rfl, _⟩ | ⟨rfl, _⟩ | ⟨rfl, _⟩ <;> decide
    · refine ⟨h1.1, ?_, h1.2.2⟩
      simpa using h1.2.1

/-- Witness for the amended C7 theorem at concrete argument maps. -/
theorem c7_argument_routing_witness :
    (∃ w, (("client_key"), w) ∈ buildFastmcpData [(("client_key"), JValue.str ("c"))]) ∧
    (∃ w, (("user_key"), w) ∈ buildDynData
      { method := "GET", path := "/p", client_key := JValue.null,
        entity_key := JValue.null, user_key := JValue.null } []) := by
  have h := c7_argument_routing
  refine ⟨?_, ?_⟩
  · exact (h.2.1 [(("client_key"), JValue.str ("c"))] ("client_key") (by decide)).mpr rfl
  · exact h.2.2.2.1
      { method := "GET", path := "/p", client_key := JValue.null,
        entity_key := JValue.null, user_key := JValue.null } [] ("user_key") (by decide)
